import Mathlib

/-!
# graphql-go-relay: the HTTP handler of `relay.go`

A shallow embedding of `Handler.ServeHTTP` and `NewHandler` (package
`graphqlrelay`, file `relay.go`) together with the parts of the Go standard
library the handler calls (`net/http`, `encoding/json`, `io/ioutil`,
`strings`), followed by theorems about the handler.

Conventions of the embedding:

* a Go `string` and a Go `[]byte` are both a Lean `String`, so `string(data)`
  is the identity;
* a Go pointer or interface that may be `nil` is an `Option`;
* a Go `panic` is an explicit result (`Except.error` for `NewHandler`, the
  `panicked` field of `Outcome` for `ServeHTTP`);
* `ServeHTTP` returns, next to the final state of the `http.ResponseWriter`,
  a record of what it did: whether it read the body, the calls it made to the
  engine and the value it handed to the JSON encoder.
-/

namespace GraphqlRelay

/-! ## Constants of `relay.go` and of `net/http` -/

/-- The constant `ContentTypeJSON` of `relay.go`. -/
def ContentTypeJSON : String := "application/json"

/-- The constant `ContentTypeGraphQL` of `relay.go`. -/
def ContentTypeGraphQL : String := "application/graphql"

/-- The constant `http.StatusOK`. -/
def StatusOK : Nat := 200

/-- The constant `http.StatusBadRequest`. -/
def StatusBadRequest : Nat := 400

/-- The constant `http.StatusMethodNotAllowed`. -/
def StatusMethodNotAllowed : Nat := 405

/-- The constant `http.StatusRequestEntityTooLarge`. -/
def StatusRequestEntityTooLarge : Nat := 413

/-- The constant `http.StatusInternalServerError`. -/
def StatusInternalServerError : Nat := 500

/-- Go's `strings.HasPrefix(s, prefix)`: `s` begins with `prefix`, compared
byte for byte (hence case-sensitively). -/
def HasPrefix (s pre : String) : Bool :=
  pre.data.isPrefixOf s.data

/-! ## Go values as `encoding/json` sees them -/

/-- A Go value held in an `interface{}`, by the shape `encoding/json` gives it:
`nil`, a `bool`, a number (kept as its decimal literal), a `string`, a slice, a
map or struct (its members in order), or a value the encoder rejects (a
channel, a function, a NaN, a failing `MarshalJSON`), carried with the text of
the error the encoder reports for it. -/
inductive GoValue where
  | null
  | bool (b : Bool)
  | num (lit : String)
  | str (s : String)
  | arr (xs : List GoValue)
  | obj (kvs : List (String × GoValue))
  | invalid (err : String)

/-- A Go `map[string]interface{}`, as the list of its bindings in insertion
order; a later binding of a key overrides an earlier one. -/
abbrev GoMap := List (String × GoValue)

/-- Go's `m[key]` on a `map[string]interface{}`: the latest binding. -/
def GoMap.lookup (m : GoMap) (key : String) : Option GoValue :=
  (m.reverse.find? (fun kv => kv.1 == key)).map (fun kv => kv.2)

/-! ## `encoding/json`: scanning one value from a stream -/

/-- A container whose closing bracket has not been read yet. -/
inductive Frame where
  /-- An array with the elements read so far, last first. -/
  | arr (acc : List GoValue)
  /-- An object with the members read so far, last first, and the key whose
  value is awaited, if one has been read. -/
  | obj (acc : List (String × GoValue)) (key : Option String)

/-- The states of the number automaton of the scanner. -/
inductive NumState where
  | neg | zero | int | dot | frac | exp | expSign | expDigits
  deriving DecidableEq

/-- What the scanner expects next. -/
inductive Mode where
  /-- A value. -/
  | beginValue
  /-- Right after `[`: a value or `]`. -/
  | beginValueOrEmpty
  /-- Right after `{`: a key or `}`. -/
  | beginStringOrEmpty
  /-- After `,` in an object: a key. -/
  | beginString
  /-- Inside a string literal; `raw` holds its characters, last first. -/
  | inString (raw : List Char)
  /-- After a backslash inside a string literal. -/
  | inStringEsc (raw : List Char)
  /-- After `\u` inside a string literal, `n` hexadecimal digits still due. -/
  | inStringEscU (raw : List Char) (n : Nat)
  /-- Inside a number; `raw` holds its characters, last first. -/
  | inNumber (st : NumState) (raw : List Char)
  /-- Inside `true`, `false` or `null`, `rest` still due. -/
  | inLiteral (rest : List Char) (v : GoValue)
  /-- After a value inside a container: `,`, `:` or a closing bracket. -/
  | endValue
  /-- After a top-level string, number or literal: the scanner needs one more
  byte to know that the value has ended. -/
  | endTop (v : GoValue)

/-- The scanner's `isSpace`. -/
def isSpace (c : Char) : Bool :=
  c == ' ' || c == '\t' || c == '\r' || c == '\n'

/-- A decimal digit. -/
def isDigit (c : Char) : Bool :=
  '0' ≤ c && c ≤ '9'

/-- A hexadecimal digit. -/
def isHex (c : Char) : Bool :=
  isDigit c || ('a' ≤ c && c ≤ 'f') || ('A' ≤ c && c ≤ 'F')

/-- The value of a hexadecimal digit. -/
def hexVal (c : Char) : Nat :=
  if isDigit c then c.toNat - '0'.toNat
  else if 'a' ≤ c && c ≤ 'f' then c.toNat - 'a'.toNat + 10
  else c.toNat - 'A'.toNat + 10

/-- The number read from four hexadecimal digits (`getu4`). -/
def getu4 (a b c d : Char) : Nat :=
  ((hexVal a * 16 + hexVal b) * 16 + hexVal c) * 16 + hexVal d

/-- The Unicode replacement character U+FFFD. -/
def replacementChar : Char := Char.ofNat 0xFFFD

/-- A unit of a string literal: a character, written plainly or by a
one-letter escape, or the 16-bit code of a `\u` escape. -/
inductive StrUnit where
  | char (c : Char)
  | code (r : Nat)

/-- The units of the characters between the quotes of a string literal the
scanner has accepted. -/
def strUnits : List Char → List StrUnit
  | '\\' :: 'u' :: a :: b :: c :: d :: rest => .code (getu4 a b c d) :: strUnits rest
  | '\\' :: c :: rest =>
    .char (match c with
      | 'b' => '\x08'
      | 'f' => '\x0c'
      | 'n' => '\n'
      | 'r' => '\r'
      | 't' => '\t'
      | c => c) :: strUnits rest
  | c :: rest => .char c :: strUnits rest
  | [] => []

/-- A 16-bit code in the surrogate range (`utf16.IsSurrogate`). -/
def isSurrogate (r : Nat) : Bool :=
  0xD800 ≤ r && r < 0xE000

/-- The characters of a list of units. A `\u` escape in the surrogate range
that is followed at once by a second one forming a pair with it gives the
character the pair encodes; any other escape in the surrogate range gives
U+FFFD. `pending` is such an escape whose successor has not been seen. -/
def joinUnits (pending : Option Nat) : List StrUnit → List Char
  | [] =>
    match pending with
    | some _ => [replacementChar]
    | none => []
  | .char c :: rest =>
    match pending with
    | some _ => replacementChar :: c :: joinUnits none rest
    | none => c :: joinUnits none rest
  | .code r :: rest =>
    match pending with
    | some hi =>
      if hi < 0xDC00 && 0xDC00 ≤ r && r < 0xE000 then
        Char.ofNat (0x10000 + (hi - 0xD800) * 0x400 + (r - 0xDC00)) :: joinUnits none rest
      else if isSurrogate r then replacementChar :: joinUnits (some r) rest
      else replacementChar :: Char.ofNat r :: joinUnits none rest
    | none =>
      if isSurrogate r then joinUnits (some r) rest
      else Char.ofNat r :: joinUnits none rest

/-- The function `unquote` of `encoding/json` on the characters between the
quotes of a string literal the scanner has accepted: every escape is replaced
by the character it denotes. -/
def unquote (raw : List Char) : List Char :=
  joinUnits none (strUnits raw)

/-- The result of one step of the scanner. -/
inductive StepResult where
  | cont (m : Mode) (st : List Frame)
  | done (v : GoValue)
  | error

/-- A value `v` has been completed below the containers `st`: it becomes the
next element of the innermost array or the value of the pending key of the
innermost object; with no container open it is the top-level value. -/
def attach (st : List Frame) (v : GoValue) : StepResult :=
  match st with
  | [] => .cont (.endTop v) []
  | .arr acc :: rest => .cont .endValue (.arr (v :: acc) :: rest)
  | .obj acc (some k) :: rest => .cont .endValue (.obj ((k, v) :: acc) none :: rest)
  | .obj _ none :: _ => .error

/-- The innermost container `f` has been closed. A top-level object or array
ends the value at once; the decoder does not wait for a further byte. -/
def close (f : Frame) (rest : List Frame) : StepResult :=
  let v := match f with
    | .arr acc => GoValue.arr acc.reverse
    | .obj acc _ => GoValue.obj acc.reverse
  match rest with
  | [] => .done v
  | _ => attach rest v

/-- The scanner's `stateEndValue` on the character `c`. -/
def stepEndValue (st : List Frame) (c : Char) : StepResult :=
  if isSpace c then .cont .endValue st
  else match st with
    | [] => .error
    | .arr acc :: rest =>
      if c == ',' then .cont .beginValue st
      else if c == ']' then close (.arr acc) rest
      else .error
    | .obj acc (some k) :: rest =>
      if c == ':' then .cont .beginValue (.obj acc (some k) :: rest)
      else .error
    | .obj acc none :: rest =>
      if c == ',' then .cont .beginString st
      else if c == '}' then close (.obj acc none) rest
      else .error

/-- A completed string literal: a key when the innermost container is an
object awaiting one, a value otherwise. -/
def endString (st : List Frame) (raw : List Char) : StepResult :=
  let s := String.mk (unquote raw.reverse)
  match st with
  | .obj acc none :: rest => .cont .endValue (.obj acc (some s) :: rest)
  | _ => attach st (.str s)

/-- A number or literal `v` has ended in front of the character `c`, which
is looked at again as the character that follows the value. -/
def endScalar (st : List Frame) (v : GoValue) (c : Char) : StepResult :=
  match attach st v with
  | .cont (.endTop v) _ => .done v
  | .cont _ st2 => stepEndValue st2 c
  | r => r

/-- The scanner's `stateBeginValue` on the character `c`. -/
def stepBeginValue (st : List Frame) (c : Char) : StepResult :=
  if isSpace c then .cont .beginValue st
  else if c == '{' then .cont .beginStringOrEmpty (.obj [] none :: st)
  else if c == '[' then .cont .beginValueOrEmpty (.arr [] :: st)
  else if c == '"' then .cont (.inString []) st
  else if c == '-' then .cont (.inNumber .neg [c]) st
  else if c == '0' then .cont (.inNumber .zero [c]) st
  else if isDigit c then .cont (.inNumber .int [c]) st
  else if c == 't' then .cont (.inLiteral ['r', 'u', 'e'] (.bool true)) st
  else if c == 'f' then .cont (.inLiteral ['a', 'l', 's', 'e'] (.bool false)) st
  else if c == 'n' then .cont (.inLiteral ['u', 'l', 'l'] .null) st
  else .error

/-- The number automaton (`stateNeg`, `state0`, `state1`, `stateDot`,
`stateDot0`, `stateE`, `stateESign`, `stateE0`). -/
def stepNumber (ns : NumState) (raw : List Char) (st : List Frame) (c : Char) : StepResult :=
  let fin := endScalar st (.num (String.mk raw.reverse)) c
  let go := fun (ns2 : NumState) => StepResult.cont (.inNumber ns2 (c :: raw)) st
  match ns with
  | .neg => if c == '0' then go .zero else if isDigit c then go .int else .error
  | .int =>
    if isDigit c then go .int
    else if c == '.' then go .dot
    else if c == 'e' || c == 'E' then go .exp
    else fin
  | .zero =>
    if c == '.' then go .dot
    else if c == 'e' || c == 'E' then go .exp
    else fin
  | .dot => if isDigit c then go .frac else .error
  | .frac =>
    if isDigit c then go .frac
    else if c == 'e' || c == 'E' then go .exp
    else fin
  | .exp =>
    if c == '+' || c == '-' then go .expSign
    else if isDigit c then go .expDigits
    else .error
  | .expSign => if isDigit c then go .expDigits else .error
  | .expDigits => if isDigit c then go .expDigits else fin

/-- One step of the scanner: the character `c` in the mode `m` below the open
containers `st`. -/
def step (m : Mode) (st : List Frame) (c : Char) : StepResult :=
  match m with
  | .beginValue => stepBeginValue st c
  | .beginValueOrEmpty =>
    if isSpace c then .cont .beginValueOrEmpty st
    else if c == ']' then
      match st with
      | f :: rest => close f rest
      | [] => .error
    else stepBeginValue st c
  | .beginStringOrEmpty =>
    if isSpace c then .cont .beginStringOrEmpty st
    else if c == '}' then
      match st with
      | f :: rest => close f rest
      | [] => .error
    else if c == '"' then .cont (.inString []) st
    else .error
  | .beginString =>
    if isSpace c then .cont .beginString st
    else if c == '"' then .cont (.inString []) st
    else .error
  | .inString raw =>
    if c == '"' then endString st raw
    else if c == '\\' then .cont (.inStringEsc (c :: raw)) st
    else if c.toNat < 0x20 then .error
    else .cont (.inString (c :: raw)) st
  | .inStringEsc raw =>
    if c == 'b' || c == 'f' || c == 'n' || c == 'r' || c == 't' || c == '\\' || c == '/'
        || c == '"' then
      .cont (.inString (c :: raw)) st
    else if c == 'u' then .cont (.inStringEscU (c :: raw) 4) st
    else .error
  | .inStringEscU raw n =>
    if isHex c then
      if n ≤ 1 then .cont (.inString (c :: raw)) st
      else .cont (.inStringEscU (c :: raw) (n - 1)) st
    else .error
  | .inNumber ns raw => stepNumber ns raw st c
  | .inLiteral rest v =>
    match rest with
    | [] => endScalar st v c
    | x :: more =>
      if c == x then
        match more with
        | [] =>
          match attach st v with
          | .cont m2 st2 => .cont m2 st2
          | r => r
        | _ => .cont (.inLiteral more v) st
      else .error
  | .endValue => stepEndValue st c
  | .endTop v => .done v

/-- What the scanner has found in the bytes a stream delivered. -/
inductive Scan where
  /-- A complete value, delimited inside the data. -/
  | value (v : GoValue)
  /-- The data ends right after a string, number or literal, which is the
  value if the stream ends there. -/
  | atEnd (v : GoValue)
  /-- The data ends inside a value. -/
  | truncated
  /-- The data holds nothing but white space. -/
  | empty
  /-- The data is not JSON. -/
  | syntaxError

/-- The data has run out in the mode `m`. -/
def finish (m : Mode) (st : List Frame) : Scan :=
  match m, st with
  | .beginValue, [] => .empty
  | .endTop v, _ => .atEnd v
  | .inNumber ns raw, [] =>
    if ns = .zero ∨ ns = .int ∨ ns = .frac ∨ ns = .expDigits then
      .atEnd (.num (String.mk raw.reverse))
    else .truncated
  | .inLiteral [] v, [] => .atEnd v
  | _, _ => .truncated

/-- The scanner run over the data of a stream, from the mode `m` below the
open containers `st`. -/
def scanFrom (m : Mode) (st : List Frame) : List Char → Scan
  | [] => finish m st
  | c :: cs =>
    match step m st c with
    | .cont m2 st2 => scanFrom m2 st2 cs
    | .done v => .value v
    | .error => .syntaxError

/-- The first JSON value of `data`. -/
def scanValue (data : String) : Scan :=
  scanFrom .beginValue [] data.data

/-! ## `encoding/json`: storing a value into the request parameters -/

/-- The anonymous struct `params` of `ServeHTTP`, with its three fields tagged
`json:"query"`, `json:"operationName"` and `json:"variables"`. A `nil` map
is `none`. -/
structure Params where
  Query : String
  OperationName : String
  Variables : Option GoMap

/-- The zero value of `params`, to which `var params struct {...}` sets it. -/
def Params.zero : Params :=
  { Query := "", OperationName := "", Variables := none }

/-- An error of reading a stream: `bytes.ErrTooLarge` or any other one, with
its text. -/
inductive ReadError where
  | tooLarge
  | other (msg : String)
  deriving DecidableEq

/-- An error of `(*json.Decoder).Decode`: a `*json.SyntaxError`, `io.EOF`,
`io.ErrUnexpectedEOF`, an error of the underlying reader, or a
`*json.UnmarshalTypeError` on the named field (on the whole value when the
name is empty). -/
inductive DecodeError where
  | syntaxError
  | eof
  | unexpectedEOF
  | readError (e : ReadError)
  | unmarshalType (field : String)
  deriving DecidableEq

/-- The letter under which `encoding/json` compares a character of a key with
a field name: keys match field names regardless of the case of ASCII letters,
and the long s U+017F and the Kelvin sign U+212A count as `s` and `k`. -/
def foldChar (c : Char) : Char :=
  if c == Char.ofNat 0x017F then 's'
  else if c == Char.ofNat 0x212A then 'k'
  else c.toLower

/-- The key `key` of a JSON object names the field tagged `name`. -/
def equalFold (name key : String) : Bool :=
  name.data.map foldChar == key.data.map foldChar

/-- The member `kv` of the JSON object is stored into `params`: a string or
`null` into a `string` field, an object or `null` into the map, `null`
leaving a string as it is and setting the map to `nil`; an object is stored
into the map the field already holds, if any. A member of another type is
skipped and the first such error kept; a key that names no field is ignored. -/
def storeMember (acc : Params × Option DecodeError) (kv : String × GoValue) :
    Params × Option DecodeError :=
  let p := acc.1
  let fail := fun (f : String) =>
    (p, match acc.2 with
      | some e => some e
      | none => some (DecodeError.unmarshalType f))
  if equalFold "query" kv.1 then
    match kv.2 with
    | .str s => ({ p with Query := s }, acc.2)
    | .null => acc
    | _ => fail "query"
  else if equalFold "operationName" kv.1 then
    match kv.2 with
    | .str s => ({ p with OperationName := s }, acc.2)
    | .null => acc
    | _ => fail "operationName"
  else if equalFold "variables" kv.1 then
    match kv.2 with
    | .obj kvs => ({ p with Variables := some ((p.Variables.getD []) ++ kvs) }, acc.2)
    | .null => ({ p with Variables := none }, acc.2)
    | _ => fail "variables"
  else acc

/-- The value `v` is stored into the zero value of `params`: `null` leaves
it as it is, an object is stored member by member, and a value of any other
type is an error. -/
def unmarshalParams (v : GoValue) : Except DecodeError Params :=
  match v with
  | .null => .ok Params.zero
  | .obj kvs =>
    match kvs.foldl storeMember (Params.zero, none) with
    | (p, none) => .ok p
    | (_, some e) => .error e
  | _ => .error (.unmarshalType "")

/-! ## The request -/

/-- The body of a request, an `io.ReadCloser`: the bytes it delivers and the
error that ends it, `none` for `io.EOF`. -/
structure Body where
  data : String
  err : Option ReadError

/-- Go's `ioutil.ReadAll(r.Body)`: all the bytes, or the error of the
stream. -/
def ReadAll (b : Body) : Except ReadError String :=
  match b.err with
  | none => .ok b.data
  | some e => .error e

/-- Go's `json.NewDecoder(r.Body).Decode(&params)` on the zero value of
`params`: the first JSON value of the stream is scanned and stored. The
stream is read no further than the end of that value, so that what follows it
- more data or an error of the stream - does not matter. -/
def Decode (b : Body) : Except DecodeError Params :=
  match scanValue b.data with
  | .value v => unmarshalParams v
  | .atEnd v =>
    match b.err with
    | none => unmarshalParams v
    | some e => .error (.readError e)
  | .truncated =>
    match b.err with
    | none => .error .unexpectedEOF
    | some e => .error (.readError e)
  | .empty =>
    match b.err with
    | none => .error .eof
    | some e => .error (.readError e)
  | .syntaxError => .error .syntaxError

/-- An `http.Header`: the values of each key. The keys are in canonical form,
as are all the keys the handler uses. -/
abbrev Header := List (String × List String)

/-- Go's `Header.Get`: the first value of the key, `""` if there is none. -/
def Header.Get (h : Header) (key : String) : String :=
  match h.find? (fun kv => kv.1 == key) with
  | some (_, v :: _) => v
  | _ => ""

/-- Go's `Header.Set`: the key gets the single value `value`. -/
def Header.Set (h : Header) (key value : String) : Header :=
  (key, [value]) :: h.filter (fun kv => kv.1 != key)

/-- A `context.Context`, which the handler only passes on. -/
structure Context where
  id : Nat
  deriving DecidableEq

/-- What `ServeHTTP` uses of an `*http.Request`: the method, the header, the
body (`nil` is `none`) and the context `r.Context()`. -/
structure Request where
  Method : String
  Header : Header
  Body : Option Body
  ctx : Context

/-! ## The response writer -/

/-- The state of an `http.ResponseWriter`: the header map, the status code
once it has been written, and the bytes of the body written so far. -/
structure ResponseWriter where
  header : Header
  status : Option Nat
  body : String

/-- A response writer to which nothing has been written, with the header map
`hdr`. -/
def ResponseWriter.new (hdr : Header) : ResponseWriter :=
  { header := hdr, status := none, body := "" }

/-- Go's `w.Header().Set(key, value)`. -/
def ResponseWriter.SetHeader (w : ResponseWriter) (key value : String) : ResponseWriter :=
  { w with header := w.header.Set key value }

/-- Go's `w.WriteHeader(code)`: a second call has no effect. -/
def ResponseWriter.WriteHeader (w : ResponseWriter) (code : Nat) : ResponseWriter :=
  match w.status with
  | some _ => w
  | none => { w with status := some code }

/-- Go's `w.Write(data)`: writes the status 200 first if none has been
written. -/
def ResponseWriter.Write (w : ResponseWriter) (data : String) : ResponseWriter :=
  let w1 := w.WriteHeader StatusOK
  { w1 with body := w1.body ++ data }

/-- Go's `http.Error(w, error, code)`: a plain-text response with the status
`code` whose body is the line `error`. -/
def Error (w : ResponseWriter) (error : String) (code : Nat) : ResponseWriter :=
  let w1 := w.SetHeader "Content-Type" "text/plain; charset=utf-8"
  let w2 := w1.SetHeader "X-Content-Type-Options" "nosniff"
  let w3 := w2.WriteHeader code
  w3.Write (error ++ "\n")

/-! ## `encoding/json`: the encoder -/

/-- A hexadecimal digit, in lower case. -/
def hexDigit (n : Nat) : Char :=
  if n < 10 then Char.ofNat (48 + n) else Char.ofNat (87 + n)

/-- The encoding of a character inside a string literal. The encoder of the
handler escapes HTML: `<`, `>` and `&` are written as `\u00XX`, as are the
control characters without a one-letter escape, and U+2028 and U+2029 are
written as the escapes `\u2028` and `\u2029`. -/
def escapeChar (c : Char) : List Char :=
  if c == '"' then ['\\', '"']
  else if c == '\\' then ['\\', '\\']
  else if c == '\n' then ['\\', 'n']
  else if c == '\r' then ['\\', 'r']
  else if c == '\t' then ['\\', 't']
  else if c.toNat < 0x20 || c == '<' || c == '>' || c == '&' then
    ['\\', 'u', '0', '0', hexDigit (c.toNat / 16), hexDigit (c.toNat % 16)]
  else if c.toNat == 0x2028 then ['\\', 'u', '2', '0', '2', '8']
  else if c.toNat == 0x2029 then ['\\', 'u', '2', '0', '2', '9']
  else [c]

/-- The string literal that encodes `s`. -/
def quote (s : String) : List Char :=
  '"' :: (s.data.flatMap escapeChar ++ ['"'])

mutual
/-- The compact encoding of a value, or the error of the first value in it
that the encoder rejects. -/
def marshalValue : GoValue → Except String (List Char)
  | .null => .ok ['n', 'u', 'l', 'l']
  | .bool b => .ok (if b then ['t', 'r', 'u', 'e'] else ['f', 'a', 'l', 's', 'e'])
  | .num lit => .ok lit.data
  | .str s => .ok (quote s)
  | .arr xs =>
    match marshalElems xs with
    | .ok t => .ok ('[' :: (t ++ [']']))
    | .error e => .error e
  | .obj kvs =>
    match marshalMembers kvs with
    | .ok t => .ok ('{' :: (t ++ ['}']))
    | .error e => .error e
  | .invalid err => .error err
/-- The elements of an array, separated by commas. -/
def marshalElems : List GoValue → Except String (List Char)
  | [] => .ok []
  | x :: xs =>
    match marshalValue x, marshalElems xs with
    | .ok a, .ok b => .ok (if xs.isEmpty then a else a ++ ',' :: b)
    | .error e, _ => .error e
    | _, .error e => .error e
/-- The members of an object, separated by commas. -/
def marshalMembers : List (String × GoValue) → Except String (List Char)
  | [] => .ok []
  | (k, x) :: kvs =>
    match marshalValue x, marshalMembers kvs with
    | .ok a, .ok b => .ok (quote k ++ ':' :: (if kvs.isEmpty then a else a ++ ',' :: b))
    | .error e, _ => .error e
    | _, .error e => .error e
end

/-- A line break followed by `depth` tabs. -/
def newline (depth : Nat) : List Char :=
  '\n' :: List.replicate depth '\t'

/-- Go's `json.Indent(dst, src, "", "\t")` on a compact encoding: every
member and element goes on a line of its own, indented by one tab per open
bracket, a colon is followed by a blank, and `{}` and `[]` stay as they
are. `needIndent` holds right after an opening bracket; `inStr` inside a
string literal, `esc` after a backslash in it. -/
def indentFrom (depth : Nat) (needIndent inStr esc : Bool) : List Char → List Char
  | [] => []
  | c :: cs =>
    if inStr then
      if esc then c :: indentFrom depth needIndent true false cs
      else if c == '\\' then c :: indentFrom depth needIndent true true cs
      else if c == '"' then c :: indentFrom depth needIndent false false cs
      else c :: indentFrom depth needIndent true false cs
    else if c == '}' || c == ']' then
      if needIndent then c :: indentFrom depth false false false cs
      else newline (depth - 1) ++ c :: indentFrom (depth - 1) false false false cs
    else
      let d := if needIndent then depth + 1 else depth
      let pre := if needIndent then newline d else []
      if c == '{' || c == '[' then pre ++ c :: indentFrom d true false false cs
      else if c == ',' then pre ++ c :: (newline d ++ indentFrom d false false false cs)
      else if c == ':' then pre ++ c :: ' ' :: indentFrom d false false false cs
      else if c == '"' then pre ++ c :: indentFrom d false true false cs
      else pre ++ c :: indentFrom d false false false cs

/-- Go's `(*json.Encoder).Encode(v)` into a buffer, after `SetIndent("",
"\t")` when `pretty` holds: the bytes written, which are the encoding of `v`
and a line break, or the error of the encoder, in which case nothing is
written. -/
def Encode (pretty : Bool) (v : GoValue) : Except String String :=
  match marshalValue v with
  | .error e => .error e
  | .ok t =>
    let b := t ++ ['\n']
    .ok (String.mk (if pretty then indentFrom 0 false false false b else b))

/-! ## The engine and the handler -/

/-- Modelled from the spec: `graphql.Response`, the execution result, is
declared in `github.com/graph-gophers/graphql-go`, which is not part of this
repository. It is "an opaque value returned by the external engine", which
the handler "only reads to produce a response body": it is the Go value the
encoder is given. -/
abbrev Response := GoValue

/-- Modelled from the spec: `graphql.Schema`, the execution engine, is
declared in `github.com/graph-gophers/graphql-go`. The handler uses nothing
of it but the method `Exec(ctx, query, operationName, variables)`, which
returns an execution result. -/
structure Schema where
  Exec : Context → String → String → Option GoMap → Response

/-- The type `OnResponse` of `relay.go`. -/
abbrev OnResponse := Response → GoValue

/-- The struct `Handler` of `relay.go`. The pointer `Schema` and the function
value `onResponse` may be `nil`. -/
structure Handler where
  Schema : Option Schema
  pretty : Bool
  onResponse : Option OnResponse

/-- A call of `Schema.Exec` with its four arguments. -/
structure ExecCall where
  ctx : Context
  query : String
  operationName : String
  vars : Option GoMap

/-- What a run of `ServeHTTP` has done: the final state of the response
writer, whether the body of the request has been read from, the calls made to
the engine, the value handed to the encoder if one was, and the panic that
ended the run if one did. -/
structure Outcome where
  w : ResponseWriter
  bodyRead : Bool
  execCalls : List ExecCall
  encoded : Option GoValue
  panicked : Option String

/-- The method `ServeHTTP` of `relay.go`. -/
def ServeHTTP (h : Handler) (w : ResponseWriter) (r : Request) : Outcome :=
  if r.Method ≠ "POST" then
    let w := w.SetHeader "Allow" "POST"
    ⟨Error w "GraphQL only supports POST requests." StatusMethodNotAllowed, false, [], none, none⟩
  else
    match r.Body with
    | none => ⟨Error w "No body provided." StatusBadRequest, false, [], none, none⟩
    | some body =>
      -- Check Content-Type
      let contentTypeStr := r.Header.Get "Content-Type"
      let decoded : Except Outcome Params :=
        if HasPrefix contentTypeStr ContentTypeJSON then
          match Decode body with
          | .error _ =>
            .error ⟨Error w "POST body is invalid JSON." StatusBadRequest, true, [], none, none⟩
          | .ok params => .ok params
        else if HasPrefix contentTypeStr ContentTypeGraphQL then
          match ReadAll body with
          | .error err =>
            if err = ReadError.tooLarge then
              .error ⟨Error w "POST body is too large." StatusRequestEntityTooLarge,
                true, [], none, none⟩
            else
              .error ⟨Error w "POST body is invalid." StatusInternalServerError,
                true, [], none, none⟩
          | .ok data => .ok { Params.zero with Query := data }
        else
          .error ⟨Error w "Not supported content type." StatusBadRequest, false, [], none, none⟩
      match decoded with
      | .error o => o
      | .ok params =>
        if params.Query = "" then
          ⟨Error w "Must provide query string." StatusBadRequest, true, [], none, none⟩
        else
          let call : ExecCall :=
            ⟨r.ctx, params.Query, params.OperationName, params.Variables⟩
          match h.Schema with
          | none =>
            -- `Exec` is entered with a nil receiver and fails on its first access to it
            ⟨w, true, [call], none,
              some "runtime error: invalid memory address or nil pointer dereference"⟩
          | some schema =>
            let response := schema.Exec r.ctx params.Query params.OperationName params.Variables
            let resp : GoValue :=
              match h.onResponse with
              | some f => f response
              | none => response
            -- Process response
            match Encode h.pretty resp with
            | .error err =>
              ⟨Error w err StatusInternalServerError, true, [call], some resp, none⟩
            | .ok buf =>
              let w := w.SetHeader "Content-Type" ContentTypeJSON
              let w := w.WriteHeader StatusOK
              let w := w.Write buf
              ⟨w, true, [call], some resp, none⟩

/-- The function `NewHandler` of `relay.go`; `Except.error` is the panic. -/
def NewHandler (schema : Option Schema) (pretty : Bool) (onResponse : Option OnResponse) :
    Except String Handler :=
  match schema with
  | none => .error "nil GraphQL schema"
  | some _ => .ok { Schema := schema, pretty := pretty, onResponse := onResponse }

/-- The switch on the content type of `ServeHTTP` decodes the body `body` of
the request `r` to the parameters `p`: by `Decode` when the content type
starts with `application/json`, and otherwise, when it starts with
`application/graphql`, by `ReadAll`, which gives the query and leaves the
other two parameters at their zero values. -/
def Decodes (r : Request) (body : Body) (p : Params) : Prop :=
  (HasPrefix (r.Header.Get "Content-Type") ContentTypeJSON = true ∧ Decode body = .ok p)
  ∨ (HasPrefix (r.Header.Get "Content-Type") ContentTypeJSON = false
      ∧ HasPrefix (r.Header.Get "Content-Type") ContentTypeGraphQL = true
      ∧ ReadAll body = .ok p.Query ∧ p.OperationName = "" ∧ p.Variables = none)

/-! ## The error taxonomy of the specification -/

/-- The error kinds of section 7 of the specification. -/
inductive ErrorKind where
  | MethodNotAllowed
  | MissingBody
  | UnsupportedMediaType
  | InvalidPayload
  | PayloadTooLarge
  | InternalReadError
  | MissingQuery
  | InternalEncodeError
  deriving DecidableEq

/-- The status `ServeHTTP` passes to `http.Error` for each kind. -/
def ErrorKind.status : ErrorKind → Nat
  | .MethodNotAllowed => StatusMethodNotAllowed
  | .MissingBody => StatusBadRequest
  | .UnsupportedMediaType => StatusBadRequest
  | .InvalidPayload => StatusBadRequest
  | .PayloadTooLarge => StatusRequestEntityTooLarge
  | .InternalReadError => StatusInternalServerError
  | .MissingQuery => StatusBadRequest
  | .InternalEncodeError => StatusInternalServerError

/-- The constant message `ServeHTTP` passes to `http.Error` for each kind;
there is none for `InternalEncodeError`, for which it passes `err.Error()`. -/
def ErrorKind.message : ErrorKind → Option String
  | .MethodNotAllowed => some "GraphQL only supports POST requests."
  | .MissingBody => some "No body provided."
  | .UnsupportedMediaType => some "Not supported content type."
  | .InvalidPayload => some "POST body is invalid JSON."
  | .PayloadTooLarge => some "POST body is too large."
  | .InternalReadError => some "POST body is invalid."
  | .MissingQuery => some "Must provide query string."
  | .InternalEncodeError => none

/-! ## Sample handlers and requests -/

/-- An engine that answers every query with the field error `boom`. -/
def failingSchema : Schema :=
  { Exec := fun _ _ _ _ =>
      .obj [("errors", .arr [.obj [("message", .str "boom")]]), ("data", .null)] }

/-- An engine that answers with the query it was given. -/
def echoSchema : Schema :=
  { Exec := fun _ query _ _ => .obj [("data", .obj [("echo", .str query)])] }

/-- A hook that wraps the result. -/
def wrapHook : OnResponse :=
  fun res => .obj [("result", res)]

/-- A hook that returns a channel, which `encoding/json` does not encode. -/
def chanHook : OnResponse :=
  fun _ => .invalid "json: unsupported type: chan int"

/-- A hook that returns a function, which `encoding/json` does not encode. -/
def funcHook : OnResponse :=
  fun _ => .invalid "json: unsupported type: func()"

/-- The JSON body `{"query":"{ hello }"}`. -/
def helloJSON : String := "\x7b\"query\":\"\x7b hello \x7d\"\x7d"

/-- The JSON body `{"query":""}`. -/
def emptyQueryJSON : String := "\x7b\"query\":\"\"\x7d"

/-- A request with the given method, content type and body. -/
def sampleRequest (method contentType : String) (body : Option Body) : Request :=
  { Method := method, Header := [("Content-Type", [contentType])], Body := body, ctx := ⟨0⟩ }

/-! ## The response writer -/

theorem Error_status (hdr : Header) (msg : String) (code : Nat) :
    (Error (ResponseWriter.new hdr) msg code).status = some code := by
  rfl

theorem Error_body (hdr : Header) (msg : String) (code : Nat) :
    (Error (ResponseWriter.new hdr) msg code).body = msg ++ "\n" := by
  show "" ++ (msg ++ "\n") = msg ++ "\n"
  simp

theorem Error_contentType (w : ResponseWriter) (msg : String) (code : Nat) :
    (Error w msg code).header.Get "Content-Type" = "text/plain; charset=utf-8" := by
  simp [Error, ResponseWriter.Write, ResponseWriter.WriteHeader, ResponseWriter.SetHeader,
    Header.Set, Header.Get]
  cases w.status <;> simp [List.find?]

theorem Error_setHeader_status (hdr : Header) (key value msg : String) (code : Nat) :
    (Error ((ResponseWriter.new hdr).SetHeader key value) msg code).status = some code := by
  rfl

theorem Error_setHeader_body (hdr : Header) (key value msg : String) (code : Nat) :
    (Error ((ResponseWriter.new hdr).SetHeader key value) msg code).body = msg ++ "\n" := by
  show "" ++ (msg ++ "\n") = msg ++ "\n"
  simp

theorem Error_allow (hdr : Header) (msg : String) (code : Nat) :
    (Error ((ResponseWriter.new hdr).SetHeader "Allow" "POST") msg code).header.Get "Allow"
      = "POST" := by
  simp [Error, ResponseWriter.Write, ResponseWriter.WriteHeader, ResponseWriter.SetHeader,
    ResponseWriter.new, Header.Set, Header.Get, List.find?]

theorem ok_status (hdr : Header) (buf : String) :
    ((((ResponseWriter.new hdr).SetHeader "Content-Type" ContentTypeJSON).WriteHeader
      StatusOK).Write buf).status = some 200 := by
  rfl

theorem ok_body (hdr : Header) (buf : String) :
    ((((ResponseWriter.new hdr).SetHeader "Content-Type" ContentTypeJSON).WriteHeader
      StatusOK).Write buf).body = buf := by
  show "" ++ buf = buf
  simp

theorem ok_contentType (hdr : Header) (buf : String) :
    ((((ResponseWriter.new hdr).SetHeader "Content-Type" ContentTypeJSON).WriteHeader
      StatusOK).Write buf).header.Get "Content-Type" = "application/json" := by
  simp [ResponseWriter.Write, ResponseWriter.WriteHeader, ResponseWriter.SetHeader,
    ResponseWriter.new, Header.Set, Header.Get, List.find?, ContentTypeJSON]

/-! ## The two content types -/

theorem hasPrefix_graphql_not_json (ct : String)
    (hg : HasPrefix ct ContentTypeGraphQL = true) : HasPrefix ct ContentTypeJSON = false := by
  cases hj : HasPrefix ct ContentTypeJSON
  · rfl
  · exfalso
    unfold HasPrefix at hg hj
    rw [List.isPrefixOf_iff_prefix] at hg hj
    rcases List.prefix_or_prefix_of_prefix hg hj with h | h
    · exact absurd h (by decide)
    · exact absurd h (by decide)

/-! ## The decoder on an object that carries the query -/

theorem strUnits_cons_plain (c : Char) (cs : List Char) (hc : c ≠ '\\') :
    strUnits (c :: cs) = StrUnit.char c :: strUnits cs := by
  conv_lhs => unfold strUnits
  split
  · rename_i heq
    injection heq with h1 h2
    exact (hc h1).elim
  · rename_i heq
    injection heq with h1 h2
    exact (hc h1).elim
  · rename_i heq
    injection heq with h1 h2
    subst h1 h2
    rfl
  · rename_i heq
    exact absurd heq (by simp)

theorem strUnits_plain (cs : List Char) (h : ∀ c ∈ cs, c ≠ '\\') :
    strUnits cs = cs.map StrUnit.char := by
  induction cs with
  | nil => rfl
  | cons c cs ih =>
    rw [strUnits_cons_plain c cs (h c (List.mem_cons_self _ _)), List.map_cons,
      ih (fun d hd => h d (List.mem_cons_of_mem _ hd))]

theorem joinUnits_chars (cs : List Char) : joinUnits none (cs.map StrUnit.char) = cs := by
  induction cs with
  | nil => rfl
  | cons c cs ih => simp [joinUnits, ih]

theorem unquote_plain (cs : List Char) (h : ∀ c ∈ cs, c ≠ '\\') : unquote cs = cs := by
  rw [unquote, strUnits_plain cs h, joinUnits_chars]

theorem scanFrom_inString_plain (cs : List Char) (raw : List Char) (st : List Frame)
    (rest : List Char)
    (h : ∀ c ∈ cs, c ≠ '"' ∧ c ≠ '\\' ∧ 0x20 ≤ c.toNat) :
    scanFrom (.inString raw) st (cs ++ rest) = scanFrom (.inString (cs.reverse ++ raw)) st rest := by
  induction cs generalizing raw with
  | nil => rfl
  | cons c cs ih =>
    obtain ⟨h1, h2, h3⟩ := h c (List.mem_cons_self _ _)
    have ht : ∀ d ∈ cs, d ≠ '"' ∧ d ≠ '\\' ∧ 0x20 ≤ d.toNat :=
      fun d hd => h d (List.mem_cons_of_mem _ hd)
    have hs : step (.inString raw) st c = .cont (.inString (c :: raw)) st := by
      simp [step, h1, h2, Nat.not_lt.mpr h3]
    rw [List.cons_append, scanFrom, hs]
    simp only
    rw [ih (c :: raw) ht]
    simp

/-- A body of the form `{"query":"q"}`, where `q` has no quotation mark, no
backslash and no control character, is the JSON object whose only member is
the string `q` under the key `query`. -/
theorem scanValue_query_object (q : String)
    (h : ∀ c ∈ q.data, c ≠ '"' ∧ c ≠ '\\' ∧ 0x20 ≤ c.toNat) :
    scanValue ("\x7b\"query\":\"" ++ q ++ "\"\x7d") = .value (.obj [("query", .str q)]) := by
  have e : scanValue ("\x7b\"query\":\"" ++ q ++ "\"\x7d")
      = scanFrom (.inString []) [.obj [] (some "query")] (q.data ++ ['"', '}']) := by
    simp only [scanValue, String.data_append]
    rfl
  rw [e, scanFrom_inString_plain q.data [] _ _ h]
  have hq : unquote q.data = q.data := unquote_plain q.data (fun c hc => (h c hc).2.1)
  simp [scanFrom, step, endString, attach, stepEndValue, close, isSpace, hq]

/-! ## The decoder on an object without a query -/

theorem storeMember_query (acc : Params × Option DecodeError) (kv : String × GoValue)
    (h : equalFold "query" kv.1 = false) : (storeMember acc kv).1.Query = acc.1.Query := by
  unfold storeMember
  simp only [h]
  split
  · exact absurd ‹false = true› (by decide)
  · split
    · split <;> rfl
    · split
      · split <;> rfl
      · rfl

theorem foldl_storeMember_query (kvs : List (String × GoValue))
    (acc : Params × Option DecodeError) (h : ∀ kv ∈ kvs, equalFold "query" kv.1 = false) :
    (kvs.foldl storeMember acc).1.Query = acc.1.Query := by
  induction kvs generalizing acc with
  | nil => rfl
  | cons kv kvs ih =>
    rw [List.foldl_cons, ih _ (fun x hx => h x (List.mem_cons_of_mem _ hx)),
      storeMember_query acc kv (h kv (List.mem_cons_self _ _))]

/-- A JSON object none of whose keys names the field `query` is decoded, if
it is decoded at all, to parameters with the empty query. -/
theorem unmarshalParams_query_absent (kvs : List (String × GoValue)) (p : Params)
    (h : ∀ kv ∈ kvs, equalFold "query" kv.1 = false)
    (hp : unmarshalParams (.obj kvs) = .ok p) : p.Query = "" := by
  have e := foldl_storeMember_query kvs (Params.zero, none) h
  unfold unmarshalParams at hp
  simp only at hp
  split at hp
  · rename_i p2 heq
    injection hp with hp
    subst hp
    rw [heq] at e
    exact e
  · exact absurd hp (by simp)

/-! ## The paths of `ServeHTTP` -/

theorem serveHTTP_not_post (h : Handler) (w : ResponseWriter) (r : Request)
    (hm : r.Method ≠ "POST") :
    ServeHTTP h w r = ⟨Error (w.SetHeader "Allow" "POST") "GraphQL only supports POST requests."
      StatusMethodNotAllowed, false, [], none, none⟩ := by
  simp [ServeHTTP, hm]

theorem serveHTTP_no_body (h : Handler) (w : ResponseWriter) (r : Request)
    (hm : r.Method = "POST") (hb : r.Body = none) :
    ServeHTTP h w r = ⟨Error w "No body provided." StatusBadRequest, false, [], none, none⟩ := by
  simp [ServeHTTP, hm, hb]

theorem serveHTTP_unsupported (h : Handler) (w : ResponseWriter) (r : Request) (body : Body)
    (hm : r.Method = "POST") (hb : r.Body = some body)
    (hj : HasPrefix (r.Header.Get "Content-Type") ContentTypeJSON = false)
    (hg : HasPrefix (r.Header.Get "Content-Type") ContentTypeGraphQL = false) :
    ServeHTTP h w r
      = ⟨Error w "Not supported content type." StatusBadRequest, false, [], none, none⟩ := by
  simp [ServeHTTP, hm, hb, hj, hg]

theorem serveHTTP_invalid_json (h : Handler) (w : ResponseWriter) (r : Request) (body : Body)
    (e : DecodeError) (hm : r.Method = "POST") (hb : r.Body = some body)
    (hj : HasPrefix (r.Header.Get "Content-Type") ContentTypeJSON = true)
    (hd : Decode body = .error e) :
    ServeHTTP h w r
      = ⟨Error w "POST body is invalid JSON." StatusBadRequest, true, [], none, none⟩ := by
  simp [ServeHTTP, hm, hb, hj, hd]

theorem serveHTTP_too_large (h : Handler) (w : ResponseWriter) (r : Request) (body : Body)
    (hm : r.Method = "POST") (hb : r.Body = some body)
    (hj : HasPrefix (r.Header.Get "Content-Type") ContentTypeJSON = false)
    (hg : HasPrefix (r.Header.Get "Content-Type") ContentTypeGraphQL = true)
    (hd : ReadAll body = .error .tooLarge) :
    ServeHTTP h w r
      = ⟨Error w "POST body is too large." StatusRequestEntityTooLarge, true, [], none, none⟩ := by
  simp [ServeHTTP, hm, hb, hj, hg, hd]

theorem serveHTTP_read_error (h : Handler) (w : ResponseWriter) (r : Request) (body : Body)
    (e : ReadError) (hm : r.Method = "POST") (hb : r.Body = some body)
    (hj : HasPrefix (r.Header.Get "Content-Type") ContentTypeJSON = false)
    (hg : HasPrefix (r.Header.Get "Content-Type") ContentTypeGraphQL = true)
    (hd : ReadAll body = .error e) (he : e ≠ .tooLarge) :
    ServeHTTP h w r
      = ⟨Error w "POST body is invalid." StatusInternalServerError, true, [], none, none⟩ := by
  simp [ServeHTTP, hm, hb, hj, hg, hd, he]

theorem serveHTTP_decoded (h : Handler) (w : ResponseWriter) (r : Request) (body : Body)
    (p : Params) (hm : r.Method = "POST") (hb : r.Body = some body) (hd : Decodes r body p) :
    ServeHTTP h w r =
      if p.Query = "" then
        ⟨Error w "Must provide query string." StatusBadRequest, true, [], none, none⟩
      else
        match h.Schema with
        | none =>
          ⟨w, true, [⟨r.ctx, p.Query, p.OperationName, p.Variables⟩], none,
            some "runtime error: invalid memory address or nil pointer dereference"⟩
        | some s =>
          match Encode h.pretty (match h.onResponse with
              | some f => f (s.Exec r.ctx p.Query p.OperationName p.Variables)
              | none => s.Exec r.ctx p.Query p.OperationName p.Variables) with
          | .error err =>
            ⟨Error w err StatusInternalServerError, true,
              [⟨r.ctx, p.Query, p.OperationName, p.Variables⟩],
              some (match h.onResponse with
                | some f => f (s.Exec r.ctx p.Query p.OperationName p.Variables)
                | none => s.Exec r.ctx p.Query p.OperationName p.Variables), none⟩
          | .ok buf =>
            ⟨((w.SetHeader "Content-Type" ContentTypeJSON).WriteHeader StatusOK).Write buf, true,
              [⟨r.ctx, p.Query, p.OperationName, p.Variables⟩],
              some (match h.onResponse with
                | some f => f (s.Exec r.ctx p.Query p.OperationName p.Variables)
                | none => s.Exec r.ctx p.Query p.OperationName p.Variables), none⟩ := by
  rcases hd with ⟨hj, hd⟩ | ⟨hj, hg, hd, ho, hv⟩
  · simp only [ServeHTTP, hm, hb, hj, hd]
    simp only [ne_eq, not_true_eq_false, if_false, if_true]
  · obtain ⟨q, o, v⟩ := p
    simp only at hd ho hv
    subst ho hv
    simp only [ServeHTTP, hm, hb, hj, hg, hd, Params.zero]
    simp only [ne_eq, not_true_eq_false, if_false, if_true, Bool.false_eq_true]

theorem serveHTTP_cases (h : Handler) (w : ResponseWriter) (r : Request) :
    ServeHTTP h w r = ⟨Error (w.SetHeader "Allow" "POST") "GraphQL only supports POST requests."
      StatusMethodNotAllowed, false, [], none, none⟩
    ∨ ServeHTTP h w r = ⟨Error w "No body provided." StatusBadRequest, false, [], none, none⟩
    ∨ ServeHTTP h w r
        = ⟨Error w "Not supported content type." StatusBadRequest, false, [], none, none⟩
    ∨ ServeHTTP h w r
        = ⟨Error w "POST body is invalid JSON." StatusBadRequest, true, [], none, none⟩
    ∨ ServeHTTP h w r
        = ⟨Error w "POST body is too large." StatusRequestEntityTooLarge, true, [], none, none⟩
    ∨ ServeHTTP h w r
        = ⟨Error w "POST body is invalid." StatusInternalServerError, true, [], none, none⟩
    ∨ ∃ body p, r.Method = "POST" ∧ r.Body = some body ∧ Decodes r body p := by
  by_cases hm : r.Method = "POST"
  swap
  · exact Or.inl (serveHTTP_not_post h w r hm)
  cases hb : r.Body with
  | none => exact Or.inr (Or.inl (serveHTTP_no_body h w r hm hb))
  | some body =>
    cases hj : HasPrefix (r.Header.Get "Content-Type") ContentTypeJSON with
    | true =>
      cases hd : Decode body with
      | error e =>
        exact Or.inr (Or.inr (Or.inr (Or.inl (serveHTTP_invalid_json h w r body e hm hb hj hd))))
      | ok p =>
        exact Or.inr (Or.inr (Or.inr (Or.inr (Or.inr (Or.inr
          ⟨body, p, hm, rfl, Or.inl ⟨hj, hd⟩⟩)))))
    | false =>
      cases hg : HasPrefix (r.Header.Get "Content-Type") ContentTypeGraphQL with
      | false => exact Or.inr (Or.inr (Or.inl (serveHTTP_unsupported h w r body hm hb hj hg)))
      | true =>
        cases hd : ReadAll body with
        | error e =>
          by_cases he : e = .tooLarge
          · subst he
            exact Or.inr (Or.inr (Or.inr (Or.inr (Or.inl
              (serveHTTP_too_large h w r body hm hb hj hg hd)))))
          · exact Or.inr (Or.inr (Or.inr (Or.inr (Or.inr (Or.inl
              (serveHTTP_read_error h w r body e hm hb hj hg hd he))))))
        | ok data =>
          exact Or.inr (Or.inr (Or.inr (Or.inr (Or.inr (Or.inr
            ⟨body, ⟨data, "", none⟩, hm, rfl, Or.inr ⟨hj, hg, hd, rfl, rfl⟩⟩)))))

/-! ## The method and the body -/

/-- C1: a request whose method is not `POST` is answered with the status 405
and the header `Allow: POST`; the body is not read and the engine is not
called, and the outcome is the same for every such request and handler,
whatever the body and the content type are. -/
theorem C1_method_not_allowed (h : Handler) (hdr : Header) (r : Request)
    (hm : r.Method ≠ "POST") :
    (ServeHTTP h (ResponseWriter.new hdr) r).w.status = some 405
    ∧ (ServeHTTP h (ResponseWriter.new hdr) r).w.header.Get "Allow" = "POST"
    ∧ (ServeHTTP h (ResponseWriter.new hdr) r).bodyRead = false
    ∧ (ServeHTTP h (ResponseWriter.new hdr) r).execCalls = []
    ∧ ∀ (h2 : Handler) (r2 : Request), r2.Method ≠ "POST" →
        ServeHTTP h2 (ResponseWriter.new hdr) r2 = ServeHTTP h (ResponseWriter.new hdr) r := by
  rw [serveHTTP_not_post h _ r hm]
  refine ⟨rfl, Error_allow hdr _ _, rfl, rfl, fun h2 r2 h2m => ?_⟩
  rw [serveHTTP_not_post h2 _ r2 h2m]

/-- C1, at a `GET` request that carries a JSON body. -/
theorem C1_method_not_allowed_witness :
    (ServeHTTP ⟨some echoSchema, false, none⟩ (ResponseWriter.new [])
        (sampleRequest "GET" "application/json"
          (some ⟨helloJSON, none⟩))).w.status = some 405
    ∧ (ServeHTTP ⟨some echoSchema, false, none⟩ (ResponseWriter.new [])
        (sampleRequest "GET" "application/json"
          (some ⟨helloJSON, none⟩))).execCalls = [] :=
  have t := C1_method_not_allowed ⟨some echoSchema, false, none⟩ []
    (sampleRequest "GET" "application/json" (some ⟨helloJSON, none⟩))
    (by decide)
  ⟨t.1, t.2.2.2.1⟩

/-- C8, as stated, fails: a `GET` request without a body is answered with
405, not 400. -/
theorem C8_counterexample :
    (sampleRequest "GET" "application/json" none).Body = none
    ∧ (ServeHTTP ⟨some echoSchema, false, none⟩ (ResponseWriter.new [])
        (sampleRequest "GET" "application/json" none)).w.status = some 405
    ∧ (ServeHTTP ⟨some echoSchema, false, none⟩ (ResponseWriter.new [])
        (sampleRequest "GET" "application/json" none)).w.status ≠ some 400 :=
  ⟨rfl, by decide, by decide⟩

/-- C8, amended: a `POST` request without a body is answered with the status
400 and the message `No body provided.`, whatever its content type and its
other attributes are; the engine is not called. -/
theorem C8_post_without_body (h : Handler) (hdr : Header) (r : Request)
    (hm : r.Method = "POST") (hb : r.Body = none) :
    (ServeHTTP h (ResponseWriter.new hdr) r).w.status = some 400
    ∧ (ServeHTTP h (ResponseWriter.new hdr) r).w.body = "No body provided.\n"
    ∧ (ServeHTTP h (ResponseWriter.new hdr) r).execCalls = []
    ∧ ∀ (h2 : Handler) (r2 : Request), r2.Method = "POST" → r2.Body = none →
        ServeHTTP h2 (ResponseWriter.new hdr) r2 = ServeHTTP h (ResponseWriter.new hdr) r := by
  rw [serveHTTP_no_body h _ r hm hb]
  refine ⟨rfl, Error_body hdr _ _, rfl, fun h2 r2 h2m h2b => ?_⟩
  rw [serveHTTP_no_body h2 _ r2 h2m h2b]

/-- C8, amended, at a `POST` request without a body. -/
theorem C8_post_without_body_witness :
    (ServeHTTP ⟨some echoSchema, false, none⟩ (ResponseWriter.new [])
        (sampleRequest "POST" "application/json" none)).w.status = some 400
    ∧ (ServeHTTP ⟨some echoSchema, false, none⟩ (ResponseWriter.new [])
        (sampleRequest "POST" "application/json" none)).execCalls = [] :=
  have t := C8_post_without_body ⟨some echoSchema, false, none⟩ []
    (sampleRequest "POST" "application/json" none) rfl rfl
  ⟨t.1, t.2.2.1⟩

/-! ## The content type -/

/-- C3: a `POST` request with a body whose content type starts neither with
`application/json` nor with `application/graphql` is answered with the status
400 and the message `Not supported content type.`; the body is not read and
the engine is not called. -/
theorem C3_unsupported_content_type (h : Handler) (hdr : Header) (r : Request) (body : Body)
    (hm : r.Method = "POST") (hb : r.Body = some body)
    (hj : HasPrefix (r.Header.Get "Content-Type") "application/json" = false)
    (hg : HasPrefix (r.Header.Get "Content-Type") "application/graphql" = false) :
    (ServeHTTP h (ResponseWriter.new hdr) r).w.status = some 400
    ∧ (ServeHTTP h (ResponseWriter.new hdr) r).w.body = "Not supported content type.\n"
    ∧ (ServeHTTP h (ResponseWriter.new hdr) r).bodyRead = false
    ∧ (ServeHTTP h (ResponseWriter.new hdr) r).execCalls = [] := by
  rw [serveHTTP_unsupported h _ r body hm hb hj hg]
  exact ⟨rfl, Error_body hdr _ _, rfl, rfl⟩

/-- C3, at the content types `text/plain`, the empty string and
`Application/JSON`. -/
theorem C3_unsupported_content_type_witness :
    (ServeHTTP ⟨some echoSchema, false, none⟩ (ResponseWriter.new [])
        (sampleRequest "POST" "text/plain" (some ⟨"{ hello }", none⟩))).w.status = some 400
    ∧ (ServeHTTP ⟨some echoSchema, false, none⟩ (ResponseWriter.new [])
        (sampleRequest "POST" "" (some ⟨"{ hello }", none⟩))).w.status = some 400
    ∧ (ServeHTTP ⟨some echoSchema, false, none⟩ (ResponseWriter.new [])
        (sampleRequest "POST" "Application/JSON"
          (some ⟨helloJSON, none⟩))).w.status = some 400
    ∧ (ServeHTTP ⟨some echoSchema, false, none⟩ (ResponseWriter.new [])
        (sampleRequest "POST" "Application/JSON"
          (some ⟨helloJSON, none⟩))).execCalls = [] :=
  ⟨(C3_unsupported_content_type ⟨some echoSchema, false, none⟩ []
      (sampleRequest "POST" "text/plain" (some ⟨"{ hello }", none⟩)) ⟨"{ hello }", none⟩
      rfl rfl (by decide) (by decide)).1,
   (C3_unsupported_content_type ⟨some echoSchema, false, none⟩ []
      (sampleRequest "POST" "" (some ⟨"{ hello }", none⟩)) ⟨"{ hello }", none⟩
      rfl rfl (by decide) (by decide)).1,
   (C3_unsupported_content_type ⟨some echoSchema, false, none⟩ []
      (sampleRequest "POST" "Application/JSON" (some ⟨helloJSON, none⟩))
      ⟨helloJSON, none⟩ rfl rfl (by decide) (by decide)).1,
   (C3_unsupported_content_type ⟨some echoSchema, false, none⟩ []
      (sampleRequest "POST" "Application/JSON" (some ⟨helloJSON, none⟩))
      ⟨helloJSON, none⟩ rfl rfl (by decide) (by decide)).2.2.2⟩

/-! ## The query -/

/-- C2: under either decoding strategy a request whose decoded query is
empty is answered with the status 400 and the message
`Must provide query string.` and the engine is not called; so that every call
the handler makes to the engine has a non-empty query. -/
theorem C2_missing_query (h : Handler) (hdr : Header) (r : Request) :
    (∀ (body : Body) (p : Params), r.Method = "POST" → r.Body = some body →
        HasPrefix (r.Header.Get "Content-Type") "application/json" = true →
        Decode body = .ok p → p.Query = "" →
        (ServeHTTP h (ResponseWriter.new hdr) r).w.status = some 400
        ∧ (ServeHTTP h (ResponseWriter.new hdr) r).w.body = "Must provide query string.\n"
        ∧ (ServeHTTP h (ResponseWriter.new hdr) r).execCalls = [])
    ∧ (∀ (body : Body), r.Method = "POST" → r.Body = some body →
        HasPrefix (r.Header.Get "Content-Type") "application/graphql" = true →
        ReadAll body = .ok "" →
        (ServeHTTP h (ResponseWriter.new hdr) r).w.status = some 400
        ∧ (ServeHTTP h (ResponseWriter.new hdr) r).w.body = "Must provide query string.\n"
        ∧ (ServeHTTP h (ResponseWriter.new hdr) r).execCalls = [])
    ∧ ∀ c ∈ (ServeHTTP h (ResponseWriter.new hdr) r).execCalls, c.query ≠ "" := by
  refine ⟨fun body p hm hb hj hd hq => ?_, fun body hm hb hg hd => ?_, fun c hc => ?_⟩
  · rw [serveHTTP_decoded h _ r body p hm hb (Or.inl ⟨hj, hd⟩), if_pos hq]
    exact ⟨rfl, Error_body hdr _ _, rfl⟩
  · rw [serveHTTP_decoded h _ r body ⟨"", "", none⟩ hm hb
      (Or.inr ⟨hasPrefix_graphql_not_json _ hg, hg, hd, rfl, rfl⟩), if_pos rfl]
    exact ⟨rfl, Error_body hdr _ _, rfl⟩
  · rcases serveHTTP_cases h (ResponseWriter.new hdr) r with e | e | e | e | e | e | e
    · rw [e] at hc; simp at hc
    · rw [e] at hc; simp at hc
    · rw [e] at hc; simp at hc
    · rw [e] at hc; simp at hc
    · rw [e] at hc; simp at hc
    · rw [e] at hc; simp at hc
    · obtain ⟨body, p, hm, hb, hd⟩ := e
      rw [serveHTTP_decoded h _ r body p hm hb hd] at hc
      split at hc
      · simp at hc
      · rename_i hq
        split at hc
        · simp at hc; subst hc; exact hq
        · split at hc <;> simp at hc <;> subst hc <;> exact hq

/-- C2, at the JSON bodies `{"query":""}` and `{}` and at the empty raw
body. -/
theorem C2_missing_query_witness :
    ((ServeHTTP ⟨some echoSchema, false, none⟩ (ResponseWriter.new [])
        (sampleRequest "POST" "application/json" (some ⟨emptyQueryJSON, none⟩))).w.status
        = some 400
      ∧ (ServeHTTP ⟨some echoSchema, false, none⟩ (ResponseWriter.new [])
        (sampleRequest "POST" "application/json" (some ⟨emptyQueryJSON, none⟩))).w.body
        = "Must provide query string.\n"
      ∧ (ServeHTTP ⟨some echoSchema, false, none⟩ (ResponseWriter.new [])
        (sampleRequest "POST" "application/json" (some ⟨emptyQueryJSON, none⟩))).execCalls
        = [])
    ∧ (ServeHTTP ⟨some echoSchema, false, none⟩ (ResponseWriter.new [])
        (sampleRequest "POST" "application/json" (some ⟨"{}", none⟩))).w.body
        = "Must provide query string.\n"
    ∧ (ServeHTTP ⟨some echoSchema, false, none⟩ (ResponseWriter.new [])
        (sampleRequest "POST" "application/graphql" (some ⟨"", none⟩))).w.body
        = "Must provide query string.\n" :=
  ⟨(C2_missing_query ⟨some echoSchema, false, none⟩ []
      (sampleRequest "POST" "application/json" (some ⟨emptyQueryJSON, none⟩))).1
      ⟨emptyQueryJSON, none⟩ ⟨"", "", none⟩ rfl rfl (by decide) rfl rfl,
   ((C2_missing_query ⟨some echoSchema, false, none⟩ []
      (sampleRequest "POST" "application/json" (some ⟨"{}", none⟩))).1
      ⟨"{}", none⟩ ⟨"", "", none⟩ rfl rfl (by decide) rfl rfl).2.1,
   ((C2_missing_query ⟨some echoSchema, false, none⟩ []
      (sampleRequest "POST" "application/graphql" (some ⟨"", none⟩))).2.1
      ⟨"", none⟩ rfl rfl (by decide) rfl).2.1⟩

/-- C4: for a `POST` request whose content type starts with
`application/graphql` and whose body is read without error and is not empty,
the engine is called once, with the bytes of the body as the query, the empty
operation name and the `nil` map of variables. -/
theorem C4_graphql_raw_query (h : Handler) (hdr : Header) (r : Request) (body : Body)
    (data : String) (hm : r.Method = "POST") (hb : r.Body = some body)
    (hg : HasPrefix (r.Header.Get "Content-Type") "application/graphql" = true)
    (hd : ReadAll body = .ok data) (hne : data ≠ "") :
    (ServeHTTP h (ResponseWriter.new hdr) r).execCalls = [⟨r.ctx, data, "", none⟩] := by
  rw [serveHTTP_decoded h _ r body ⟨data, "", none⟩ hm hb
    (Or.inr ⟨hasPrefix_graphql_not_json _ hg, hg, hd, rfl, rfl⟩), if_neg hne]
  split
  · rfl
  · split <;> rfl

/-- C4, at the raw body `{ hello }`. -/
theorem C4_graphql_raw_query_witness :
    (ServeHTTP ⟨some echoSchema, false, none⟩ (ResponseWriter.new [])
        (sampleRequest "POST" "application/graphql" (some ⟨"{ hello }", none⟩))).execCalls
      = [⟨⟨0⟩, "{ hello }", "", none⟩] :=
  C4_graphql_raw_query ⟨some echoSchema, false, none⟩ []
    (sampleRequest "POST" "application/graphql" (some ⟨"{ hello }", none⟩))
    ⟨"{ hello }", none⟩ "{ hello }" rfl rfl (by decide) rfl (by decide)

/-- C5, as stated, fails at `q = ""`: the body `{"query":""}` is a JSON
object that carries only the string field `query`, and nothing is handed to
the engine. -/
theorem C5_counterexample :
    scanValue emptyQueryJSON = .value (.obj [("query", .str "")])
    ∧ (ServeHTTP ⟨some echoSchema, false, none⟩ (ResponseWriter.new [])
        (sampleRequest "POST" "application/json" (some ⟨emptyQueryJSON, none⟩))).execCalls
        = []
    ∧ (ServeHTTP ⟨some echoSchema, false, none⟩ (ResponseWriter.new [])
        (sampleRequest "POST" "application/json" (some ⟨emptyQueryJSON, none⟩))).w.status
        = some 400 :=
  ⟨rfl, rfl, rfl⟩

/-- C5, amended: for a `POST` request whose content type starts with
`application/json` and whose body is a JSON object that carries only a string
field `query` = `q`, the decoded parameters are the query `q`, the empty
operation name and the `nil` map of variables, which has no binding; if `q`
is not empty these are the arguments of the one call to the engine, and if
`q` is empty the engine is not called and the status is 400. -/
theorem C5_json_query_only (h : Handler) (hdr : Header) (r : Request) (body : Body)
    (q : String) (hm : r.Method = "POST") (hb : r.Body = some body)
    (hj : HasPrefix (r.Header.Get "Content-Type") "application/json" = true)
    (hs : scanValue body.data = .value (.obj [("query", .str q)])) :
    Decode body = .ok ⟨q, "", none⟩
    ∧ (q ≠ "" →
        (ServeHTTP h (ResponseWriter.new hdr) r).execCalls = [⟨r.ctx, q, "", none⟩])
    ∧ (q = "" →
        (ServeHTTP h (ResponseWriter.new hdr) r).execCalls = []
        ∧ (ServeHTTP h (ResponseWriter.new hdr) r).w.status = some 400) := by
  have hd : Decode body = .ok ⟨q, "", none⟩ := by
    simp only [Decode, hs]
    rfl
  refine ⟨hd, fun hq => ?_, fun hq => ?_⟩
  · rw [serveHTTP_decoded h _ r body ⟨q, "", none⟩ hm hb (Or.inl ⟨hj, hd⟩), if_neg hq]
    split
    · rfl
    · split <;> rfl
  · rw [serveHTTP_decoded h _ r body ⟨q, "", none⟩ hm hb (Or.inl ⟨hj, hd⟩), if_pos hq]
    exact ⟨rfl, rfl⟩

/-- C5, amended, at the body `{"query":"{ hello }"}`, which reaches the
engine, and at the body `{"query":""}`, which does not. -/
theorem C5_json_query_only_witness :
    (Decode ⟨helloJSON, none⟩ = .ok ⟨"{ hello }", "", none⟩
      ∧ (ServeHTTP ⟨some echoSchema, false, none⟩ (ResponseWriter.new [])
          (sampleRequest "POST" "application/json" (some ⟨helloJSON, none⟩))).execCalls
          = [⟨⟨0⟩, "{ hello }", "", none⟩])
    ∧ (Decode ⟨emptyQueryJSON, none⟩ = .ok ⟨"", "", none⟩
      ∧ (ServeHTTP ⟨some echoSchema, false, none⟩ (ResponseWriter.new [])
          (sampleRequest "POST" "application/json" (some ⟨emptyQueryJSON, none⟩))).execCalls
          = []) :=
  have t := C5_json_query_only ⟨some echoSchema, false, none⟩ []
    (sampleRequest "POST" "application/json" (some ⟨helloJSON, none⟩))
    ⟨helloJSON, none⟩ "{ hello }" rfl rfl (by decide) rfl
  have u := C5_json_query_only ⟨some echoSchema, false, none⟩ []
    (sampleRequest "POST" "application/json" (some ⟨emptyQueryJSON, none⟩))
    ⟨emptyQueryJSON, none⟩ "" rfl rfl (by decide) rfl
  ⟨⟨t.1, t.2.1 (by decide)⟩, u.1, (u.2.2 rfl).1⟩

/-! ## The response to a request that reaches the engine -/

theorem serveHTTP_of_exec (h : Handler) (w : ResponseWriter) (r : Request) (s : Schema)
    (c : ExecCall) (hs : h.Schema = some s) (hc : (ServeHTTP h w r).execCalls = [c])
    (v : GoValue)
    (hv : v = match h.onResponse with
      | some f => f (s.Exec c.ctx c.query c.operationName c.vars)
      | none => s.Exec c.ctx c.query c.operationName c.vars) :
    ServeHTTP h w r = match Encode h.pretty v with
      | .error err => ⟨Error w err StatusInternalServerError, true, [c], some v, none⟩
      | .ok buf =>
        ⟨((w.SetHeader "Content-Type" ContentTypeJSON).WriteHeader StatusOK).Write buf,
          true, [c], some v, none⟩ := by
  rcases serveHTTP_cases h w r with e | e | e | e | e | e | e
  · rw [e] at hc; simp at hc
  · rw [e] at hc; simp at hc
  · rw [e] at hc; simp at hc
  · rw [e] at hc; simp at hc
  · rw [e] at hc; simp at hc
  · rw [e] at hc; simp at hc
  · obtain ⟨body, p, hm, hb, hd⟩ := e
    have e := serveHTTP_decoded h w r body p hm hb hd
    rw [e] at hc ⊢
    by_cases hq : p.Query = ""
    · rw [if_pos hq] at hc; simp at hc
    · rw [if_neg hq] at hc ⊢
      simp only [hs] at hc ⊢
      have hcall : c = ⟨r.ctx, p.Query, p.OperationName, p.Variables⟩ := by
        split at hc <;> simp at hc <;> exact hc.symm
      subst hcall
      subst hv
      rfl

/-- C6, as stated, fails: with a hook that returns a value the encoder
rejects, the request reaches the engine, which returns a result, and the
status is 500, with a plain-text body that is the error of the encoder. -/
theorem C6_counterexample :
    (ServeHTTP ⟨some failingSchema, false, some chanHook⟩ (ResponseWriter.new [])
        (sampleRequest "POST" "application/graphql" (some ⟨"{ hello }", none⟩))).execCalls
        = [⟨⟨0⟩, "{ hello }", "", none⟩]
    ∧ (ServeHTTP ⟨some failingSchema, false, some chanHook⟩ (ResponseWriter.new [])
        (sampleRequest "POST" "application/graphql" (some ⟨"{ hello }", none⟩))).w.status
        = some 500
    ∧ (ServeHTTP ⟨some failingSchema, false, some chanHook⟩ (ResponseWriter.new [])
        (sampleRequest "POST" "application/graphql"
          (some ⟨"{ hello }", none⟩))).w.header.Get "Content-Type"
        = "text/plain; charset=utf-8"
    ∧ (ServeHTTP ⟨some failingSchema, false, some chanHook⟩ (ResponseWriter.new [])
        (sampleRequest "POST" "application/graphql" (some ⟨"{ hello }", none⟩))).w.body
        = "json: unsupported type: chan int\n" :=
  ⟨rfl, rfl, rfl, rfl⟩

/-- C6, amended: for a request that reaches the engine, let `v` be the result
of the engine, or what the hook makes of it if a hook is configured. If the
encoder accepts `v`, the status is 200, the content type `application/json`
and the body the encoding of `v`, errors of the execution included; if the
encoder rejects `v`, the status is 500. -/
theorem C6_engine_response (h : Handler) (hdr : Header) (r : Request) (s : Schema)
    (c : ExecCall) (v : GoValue) (hs : h.Schema = some s)
    (hc : (ServeHTTP h (ResponseWriter.new hdr) r).execCalls = [c])
    (hv : v = match h.onResponse with
      | some f => f (s.Exec c.ctx c.query c.operationName c.vars)
      | none => s.Exec c.ctx c.query c.operationName c.vars) :
    (∀ buf, Encode h.pretty v = .ok buf →
        (ServeHTTP h (ResponseWriter.new hdr) r).w.status = some 200
        ∧ (ServeHTTP h (ResponseWriter.new hdr) r).w.header.Get "Content-Type"
            = "application/json"
        ∧ (ServeHTTP h (ResponseWriter.new hdr) r).w.body = buf)
    ∧ (∀ err, Encode h.pretty v = .error err →
        (ServeHTTP h (ResponseWriter.new hdr) r).w.status = some 500) := by
  have e := serveHTTP_of_exec h _ r s c hs hc v hv
  refine ⟨fun buf hb => ?_, fun err he => ?_⟩
  · rw [e, hb]
    exact ⟨ok_status hdr buf, ok_contentType hdr buf, ok_body hdr buf⟩
  · rw [e, he]
    rfl

/-- C6, amended, at an engine that reports the field error `boom`, without a
hook and with one. -/
theorem C6_engine_response_witness :
    ((ServeHTTP ⟨some failingSchema, false, none⟩ (ResponseWriter.new [])
        (sampleRequest "POST" "application/graphql" (some ⟨"{ hello }", none⟩))).w.status
        = some 200
      ∧ (ServeHTTP ⟨some failingSchema, false, none⟩ (ResponseWriter.new [])
        (sampleRequest "POST" "application/graphql"
          (some ⟨"{ hello }", none⟩))).w.header.Get "Content-Type" = "application/json"
      ∧ (ServeHTTP ⟨some failingSchema, false, none⟩ (ResponseWriter.new [])
        (sampleRequest "POST" "application/graphql" (some ⟨"{ hello }", none⟩))).w.body
        = "\x7b\"errors\":[\x7b\"message\":\"boom\"\x7d],\"data\":null\x7d\n")
    ∧ (ServeHTTP ⟨some failingSchema, false, some wrapHook⟩ (ResponseWriter.new [])
        (sampleRequest "POST" "application/graphql" (some ⟨"{ hello }", none⟩))).w.body
        = "\x7b\"result\":\x7b\"errors\":[\x7b\"message\":\"boom\"\x7d],\"data\":null\x7d\x7d\n" :=
  ⟨(C6_engine_response ⟨some failingSchema, false, none⟩ []
      (sampleRequest "POST" "application/graphql" (some ⟨"{ hello }", none⟩)) failingSchema
      ⟨⟨0⟩, "{ hello }", "", none⟩ _ rfl rfl rfl).1 _ rfl,
   ((C6_engine_response ⟨some failingSchema, false, some wrapHook⟩ []
      (sampleRequest "POST" "application/graphql" (some ⟨"{ hello }", none⟩)) failingSchema
      ⟨⟨0⟩, "{ hello }", "", none⟩ _ rfl rfl rfl).1 _ rfl).2.2⟩

/-- C7: for a request that reaches the engine, the value handed to the encoder
is what the hook returns on the result of the engine if a hook is configured,
and the result of the engine itself if none is; the body is the encoding of
that value whenever the encoder accepts it. -/
theorem C7_serialized_value (h : Handler) (hdr : Header) (r : Request) (s : Schema)
    (c : ExecCall) (hs : h.Schema = some s)
    (hc : (ServeHTTP h (ResponseWriter.new hdr) r).execCalls = [c]) :
    (∀ f, h.onResponse = some f →
        (ServeHTTP h (ResponseWriter.new hdr) r).encoded
            = some (f (s.Exec c.ctx c.query c.operationName c.vars))
        ∧ ∀ buf, Encode h.pretty (f (s.Exec c.ctx c.query c.operationName c.vars)) = .ok buf →
            (ServeHTTP h (ResponseWriter.new hdr) r).w.body = buf)
    ∧ (h.onResponse = none →
        (ServeHTTP h (ResponseWriter.new hdr) r).encoded
            = some (s.Exec c.ctx c.query c.operationName c.vars)
        ∧ ∀ buf, Encode h.pretty (s.Exec c.ctx c.query c.operationName c.vars) = .ok buf →
            (ServeHTTP h (ResponseWriter.new hdr) r).w.body = buf) := by
  refine ⟨fun f hf => ?_, fun hf => ?_⟩
  · have e := serveHTTP_of_exec h _ r s c hs hc
      (f (s.Exec c.ctx c.query c.operationName c.vars)) (by rw [hf])
    rw [e]
    refine ⟨?_, fun buf hb => ?_⟩
    · split <;> rfl
    · rw [hb]
      exact ok_body hdr buf
  · have e := serveHTTP_of_exec h _ r s c hs hc
      (s.Exec c.ctx c.query c.operationName c.vars) (by rw [hf])
    rw [e]
    refine ⟨?_, fun buf hb => ?_⟩
    · split <;> rfl
    · rw [hb]
      exact ok_body hdr buf

/-- C7, at an engine that echoes the query, with a hook that wraps the result
and without a hook. -/
theorem C7_serialized_value_witness :
    ((ServeHTTP ⟨some echoSchema, false, some wrapHook⟩ (ResponseWriter.new [])
        (sampleRequest "POST" "application/graphql" (some ⟨"{ hello }", none⟩))).encoded
        = some (.obj [("result", .obj [("data", .obj [("echo", .str "{ hello }")])])])
      ∧ (ServeHTTP ⟨some echoSchema, false, some wrapHook⟩ (ResponseWriter.new [])
        (sampleRequest "POST" "application/graphql" (some ⟨"{ hello }", none⟩))).w.body
        = "\x7b\"result\":\x7b\"data\":\x7b\"echo\":\"\x7b hello \x7d\"\x7d\x7d\x7d\n")
    ∧ ((ServeHTTP ⟨some echoSchema, false, none⟩ (ResponseWriter.new [])
        (sampleRequest "POST" "application/graphql" (some ⟨"{ hello }", none⟩))).encoded
        = some (.obj [("data", .obj [("echo", .str "{ hello }")])])
      ∧ (ServeHTTP ⟨some echoSchema, false, none⟩ (ResponseWriter.new [])
        (sampleRequest "POST" "application/graphql" (some ⟨"{ hello }", none⟩))).w.body
        = "\x7b\"data\":\x7b\"echo\":\"\x7b hello \x7d\"\x7d\x7d\n") :=
  have t1 := (C7_serialized_value ⟨some echoSchema, false, some wrapHook⟩ []
    (sampleRequest "POST" "application/graphql" (some ⟨"{ hello }", none⟩)) echoSchema
    ⟨⟨0⟩, "{ hello }", "", none⟩ rfl rfl).1 wrapHook rfl
  have t2 := (C7_serialized_value ⟨some echoSchema, false, none⟩ []
    (sampleRequest "POST" "application/graphql" (some ⟨"{ hello }", none⟩)) echoSchema
    ⟨⟨0⟩, "{ hello }", "", none⟩ rfl rfl).2 rfl
  ⟨⟨t1.1, t1.2 _ rfl⟩, t2.1, t2.2 _ rfl⟩

/-! ## The error responses -/

/-- C9, as stated, fails: when the encoder rejects the value of the hook the
body of the error response is the text of the encoder's error, which is none
of the constant messages and differs from one hook to another for the same
request. -/
theorem C9_counterexample :
    (ServeHTTP ⟨some echoSchema, false, some chanHook⟩ (ResponseWriter.new [])
        (sampleRequest "POST" "application/graphql" (some ⟨"{ hello }", none⟩))).w.status
        = some 500
    ∧ (ServeHTTP ⟨some echoSchema, false, some chanHook⟩ (ResponseWriter.new [])
        (sampleRequest "POST" "application/graphql" (some ⟨"{ hello }", none⟩))).w.body
        = "json: unsupported type: chan int\n"
    ∧ (ServeHTTP ⟨some echoSchema, false, some funcHook⟩ (ResponseWriter.new [])
        (sampleRequest "POST" "application/graphql" (some ⟨"{ hello }", none⟩))).w.body
        = "json: unsupported type: func()\n"
    ∧ (∀ k : ErrorKind, ∀ m, k.message = some m →
        (ServeHTTP ⟨some echoSchema, false, some chanHook⟩ (ResponseWriter.new [])
          (sampleRequest "POST" "application/graphql" (some ⟨"{ hello }", none⟩))).w.body
          ≠ m ++ "\n") := by
  refine ⟨rfl, rfl, rfl, fun k m hk => ?_⟩
  cases k <;> simp [ErrorKind.message] at hk <;> subst hk <;> decide

/-- C9, amended: every response of `ServeHTTP` with a status other than 200
has one of the statuses 400, 405, 413 and 500 and the content type
`text/plain; charset=utf-8`, and belongs to one of the eight error kinds, of
which it has the status; its body is the constant message of the kind, except
for `InternalEncodeError`, where it is the text of the error of the encoder on
the value handed to it. -/
theorem C9_error_responses (h : Handler) (hdr : Header) (r : Request) (code : Nat)
    (hst : (ServeHTTP h (ResponseWriter.new hdr) r).w.status = some code)
    (hne : code ≠ 200) :
    (code = 400 ∨ code = 405 ∨ code = 413 ∨ code = 500)
    ∧ (ServeHTTP h (ResponseWriter.new hdr) r).w.header.Get "Content-Type"
        = "text/plain; charset=utf-8"
    ∧ ∃ k : ErrorKind, code = k.status
        ∧ (∀ m, k.message = some m →
            (ServeHTTP h (ResponseWriter.new hdr) r).w.body = m ++ "\n")
        ∧ (k.message = none → ∃ v err,
            (ServeHTTP h (ResponseWriter.new hdr) r).encoded = some v
            ∧ Encode h.pretty v = .error err
            ∧ (ServeHTTP h (ResponseWriter.new hdr) r).w.body = err ++ "\n") := by
  have errCase : ∀ (k : ErrorKind) (m : String) (w0 : ResponseWriter) (b : Bool),
      k.message = some m → (Error w0 m k.status).status = some k.status →
      (Error w0 m k.status).body = m ++ "\n" →
      ServeHTTP h (ResponseWriter.new hdr) r = ⟨Error w0 m k.status, b, [], none, none⟩ →
      (k.status = 400 ∨ k.status = 405 ∨ k.status = 413 ∨ k.status = 500) →
      (code = 400 ∨ code = 405 ∨ code = 413 ∨ code = 500)
      ∧ (ServeHTTP h (ResponseWriter.new hdr) r).w.header.Get "Content-Type"
          = "text/plain; charset=utf-8"
      ∧ ∃ k : ErrorKind, code = k.status
          ∧ (∀ m, k.message = some m →
              (ServeHTTP h (ResponseWriter.new hdr) r).w.body = m ++ "\n")
          ∧ (k.message = none → ∃ v err,
              (ServeHTTP h (ResponseWriter.new hdr) r).encoded = some v
              ∧ Encode h.pretty v = .error err
              ∧ (ServeHTTP h (ResponseWriter.new hdr) r).w.body = err ++ "\n") := by
    intro k m w0 b hk hs hb e hcode
    rw [e] at hst ⊢
    simp only [hs, Option.some.injEq] at hst
    subst hst
    refine ⟨hcode, Error_contentType _ _ _, k, rfl, fun m2 hm2 => ?_, fun hn => ?_⟩
    · rw [hk] at hm2
      simp only [Option.some.injEq] at hm2
      subst hm2
      exact hb
    · rw [hk] at hn
      simp at hn
  rcases serveHTTP_cases h (ResponseWriter.new hdr) r with e | e | e | e | e | e | e
  · exact errCase .MethodNotAllowed _ _ _ rfl (Error_setHeader_status hdr _ _ _ _)
      (Error_setHeader_body hdr _ _ _ _) e (by decide)
  · exact errCase .MissingBody _ _ _ rfl (Error_status hdr _ _) (Error_body hdr _ _) e
      (by decide)
  · exact errCase .UnsupportedMediaType _ _ _ rfl (Error_status hdr _ _) (Error_body hdr _ _) e
      (by decide)
  · exact errCase .InvalidPayload _ _ _ rfl (Error_status hdr _ _) (Error_body hdr _ _) e
      (by decide)
  · exact errCase .PayloadTooLarge _ _ _ rfl (Error_status hdr _ _) (Error_body hdr _ _) e
      (by decide)
  · exact errCase .InternalReadError _ _ _ rfl (Error_status hdr _ _) (Error_body hdr _ _) e
      (by decide)
  · obtain ⟨body, p, hm, hb, hd⟩ := e
    have e := serveHTTP_decoded h (ResponseWriter.new hdr) r body p hm hb hd
    by_cases hq : p.Query = ""
    · rw [if_pos hq] at e
      exact errCase .MissingQuery _ _ _ rfl (Error_status hdr _ _) (Error_body hdr _ _) e
        (by decide)
    · rw [if_neg hq] at e
      cases hs : h.Schema with
      | none =>
        rw [hs] at e
        rw [e] at hst
        simp [ResponseWriter.new] at hst
      | some s =>
        rw [hs] at e
        simp only at e
        cases hv : Encode h.pretty (match h.onResponse with
            | some f => f (s.Exec r.ctx p.Query p.OperationName p.Variables)
            | none => s.Exec r.ctx p.Query p.OperationName p.Variables) with
        | ok buf =>
          rw [hv] at e
          rw [e] at hst
          simp only [ok_status, Option.some.injEq] at hst
          exact absurd hst.symm hne
        | error err =>
          rw [hv] at e
          rw [e] at hst ⊢
          simp only [Error_status, Option.some.injEq] at hst
          subst hst
          refine ⟨by decide, Error_contentType _ _ _, .InternalEncodeError, rfl,
            fun m hm2 => ?_, fun _ => ⟨_, err, rfl, hv, Error_body hdr _ _⟩⟩
          simp [ErrorKind.message] at hm2

/-- C9, amended, at a request with an unsupported content type and at one
whose hook returns a channel. -/
theorem C9_error_responses_witness :
    ((400 = 400 ∨ 400 = 405 ∨ 400 = 413 ∨ 400 = 500)
      ∧ (ServeHTTP ⟨some echoSchema, false, none⟩ (ResponseWriter.new [])
          (sampleRequest "POST" "text/plain"
            (some ⟨"{ hello }", none⟩))).w.header.Get "Content-Type"
          = "text/plain; charset=utf-8")
    ∧ (ServeHTTP ⟨some echoSchema, false, some chanHook⟩ (ResponseWriter.new [])
          (sampleRequest "POST" "application/graphql"
            (some ⟨"{ hello }", none⟩))).w.header.Get "Content-Type"
          = "text/plain; charset=utf-8" :=
  have t1 := C9_error_responses ⟨some echoSchema, false, none⟩ []
    (sampleRequest "POST" "text/plain" (some ⟨"{ hello }", none⟩)) 400 rfl (by decide)
  have t2 := C9_error_responses ⟨some echoSchema, false, some chanHook⟩ []
    (sampleRequest "POST" "application/graphql" (some ⟨"{ hello }", none⟩)) 500 rfl
    (by decide)
  ⟨⟨t1.1, t1.2.1⟩, t2.2.1⟩

/-! ## The constructor -/

/-- C10: `NewHandler` panics if and only if the schema is `nil`, whatever the
flag and the hook are, and with a schema that is not `nil` it returns the
handler whose three fields are its three arguments. -/
theorem C10_new_handler (schema : Option Schema) (pretty : Bool)
    (onResponse : Option OnResponse) :
    ((∃ msg, NewHandler schema pretty onResponse = .error msg) ↔ schema = none)
    ∧ (schema = none → NewHandler schema pretty onResponse = .error "nil GraphQL schema")
    ∧ (schema ≠ none → NewHandler schema pretty onResponse = .ok ⟨schema, pretty, onResponse⟩) := by
  cases schema with
  | none => simp [NewHandler]
  | some s => simp [NewHandler]

/-- C10, at the `nil` schema and at a schema that is not `nil`. -/
theorem C10_new_handler_witness :
    NewHandler none true (some wrapHook) = .error "nil GraphQL schema"
    ∧ NewHandler (some echoSchema) true (some wrapHook)
        = .ok ⟨some echoSchema, true, some wrapHook⟩ :=
  ⟨(C10_new_handler none true (some wrapHook)).2.1 rfl,
   (C10_new_handler (some echoSchema) true (some wrapHook)).2.2 (by simp)⟩

end GraphqlRelay
